import Mathlib

/-!
# WinSparkle integration layer (eCan.ai, `ota/`)

A shallow embedding of the two C++ wrappers around the WinSparkle update engine:

* `ota/platforms/winsparkle_integration.cpp`: the singleton `WinSparkleManager`, the
  command-line dispatcher `WinSparkleCLI::main` and the exported C entry points;
* `ota/build/sparkle/winsparkle_integration.cpp`: the class `ECBotWinSparkleUpdater`.

The engine itself (`winsparkle.h`) is an external library.  Every call the wrappers make into
it is recorded, in order, in a log of `EngineCall`s; the only value the wrappers read back from
the engine, the result of `win_sparkle_get_update_in_progress`, is supplied by an `Engine`
parameter as a function of the calls the engine has received so far.

Objects created by `new` live in a heap (a list, the address of an object is its position);
the static pointer `WinSparkleManager::instance` is `none` for `nullptr`.  Calling a method
through a pointer that addresses no object has no defined behaviour and is `none`.
Console output (`std::cout`) is not modelled.
-/

namespace WinSparkle

/-! ## The engine interface -/

/-- One call into the WinSparkle engine, named after the C function, with its arguments. -/
inductive EngineCall where
  | win_sparkle_set_appcast_url (url : String)
  | win_sparkle_set_app_name (name : String)
  | win_sparkle_set_app_version (version : String)
  | win_sparkle_set_company_name (name : String)
  | win_sparkle_set_app_details (company app version : String)
  | win_sparkle_set_automatic_check_for_updates (state : Int)
  | win_sparkle_set_automatically_download_updates (state : Int)
  | win_sparkle_set_check_update_interval (interval : Int)
  | win_sparkle_init
  | win_sparkle_check_update_with_ui
  | win_sparkle_check_update_without_ui
  | win_sparkle_install_update
  | win_sparkle_get_update_in_progress
  | win_sparkle_cleanup
  deriving DecidableEq, Repr

/-- The external engine, as far as the wrappers observe it: the integer that
`win_sparkle_get_update_in_progress` returns, given the calls received before the query. -/
structure Engine where
  update_in_progress : List EngineCall → Int

/-- Modelled from the spec: the `UpdateConfig` record of the data model (the engine keeps it;
`winsparkle.h` and the engine are not among the sources). -/
structure UpdateConfig where
  appcastUrl : String
  appName : String
  appVersion : String
  companyName : String
  autoCheckEnabled : Bool
  autoDownloadEnabled : Bool
  checkIntervalSeconds : Int
  deriving DecidableEq, Repr

/-- Modelled from the spec: the effect of one engine call on the `UpdateConfig`; each
configuration call overwrites the field it names (a flag is enabled by a non-zero argument),
every other call leaves the record as it is. -/
def UpdateConfig.apply (c : UpdateConfig) : EngineCall → UpdateConfig
  | .win_sparkle_set_appcast_url url => { c with appcastUrl := url }
  | .win_sparkle_set_app_name name => { c with appName := name }
  | .win_sparkle_set_app_version version => { c with appVersion := version }
  | .win_sparkle_set_company_name name => { c with companyName := name }
  | .win_sparkle_set_app_details company app version =>
      { c with companyName := company, appName := app, appVersion := version }
  | .win_sparkle_set_automatic_check_for_updates state =>
      { c with autoCheckEnabled := decide (state ≠ 0) }
  | .win_sparkle_set_automatically_download_updates state =>
      { c with autoDownloadEnabled := decide (state ≠ 0) }
  | .win_sparkle_set_check_update_interval interval =>
      { c with checkIntervalSeconds := interval }
  | .win_sparkle_init => c
  | .win_sparkle_check_update_with_ui => c
  | .win_sparkle_check_update_without_ui => c
  | .win_sparkle_install_update => c
  | .win_sparkle_get_update_in_progress => c
  | .win_sparkle_cleanup => c

/-- The configuration after a log of calls, starting from the configuration `c`. -/
def UpdateConfig.after (c : UpdateConfig) (calls : List EngineCall) : UpdateConfig :=
  calls.foldl UpdateConfig.apply c

/-- Whether a call is one of the engine's configuration setters. -/
def EngineCall.isConfig : EngineCall → Bool
  | .win_sparkle_set_appcast_url _ => true
  | .win_sparkle_set_app_name _ => true
  | .win_sparkle_set_app_version _ => true
  | .win_sparkle_set_company_name _ => true
  | .win_sparkle_set_app_details _ _ _ => true
  | .win_sparkle_set_automatic_check_for_updates _ => true
  | .win_sparkle_set_automatically_download_updates _ => true
  | .win_sparkle_set_check_update_interval _ => true
  | _ => false

/-- Whether a call starts a check (interactive or silent). -/
def EngineCall.isCheck : EngineCall → Bool
  | .win_sparkle_check_update_with_ui => true
  | .win_sparkle_check_update_without_ui => true
  | _ => false

/-! ## `WinSparkleManager` -/

/-- The fields of a `WinSparkleManager` object. -/
structure WinSparkleManager where
  initialized : Bool
  deriving DecidableEq, Repr

namespace WinSparkleManager

/-- The calls `initializeSparkle` issues, in source order. -/
def initializeSparkleCalls : List EngineCall :=
  [ .win_sparkle_set_appcast_url "https://updates.ecbot.com/appcast.xml",
    .win_sparkle_set_app_name "ECBot",
    .win_sparkle_set_app_version "1.0.0",
    .win_sparkle_set_company_name "ECBot Team",
    .win_sparkle_set_automatic_check_for_updates 1,
    .win_sparkle_set_automatically_download_updates 0,
    .win_sparkle_set_check_update_interval 3600,
    .win_sparkle_init ]

/-- `void initializeSparkle()`. -/
def initializeSparkle (self : WinSparkleManager) (calls : List EngineCall) :
    WinSparkleManager × List EngineCall :=
  if self.initialized then (self, calls)
  else ({ self with initialized := true }, calls ++ initializeSparkleCalls)

/-- The private constructor: `initialized(false)`, then `initializeSparkle()`. -/
def construct (calls : List EngineCall) : WinSparkleManager × List EngineCall :=
  initializeSparkle { initialized := false } calls

/-- `void checkForUpdates()`. -/
def checkForUpdates (self : WinSparkleManager) (calls : List EngineCall) :
    Unit × WinSparkleManager × List EngineCall :=
  if !self.initialized then ((), self, calls)
  else ((), self, calls ++ [.win_sparkle_check_update_with_ui])

/-- `void checkForUpdatesInBackground()`. -/
def checkForUpdatesInBackground (self : WinSparkleManager) (calls : List EngineCall) :
    Unit × WinSparkleManager × List EngineCall :=
  if !self.initialized then ((), self, calls)
  else ((), self, calls ++ [.win_sparkle_check_update_without_ui])

/-- `void installUpdate()`. -/
def installUpdate (self : WinSparkleManager) (calls : List EngineCall) :
    Unit × WinSparkleManager × List EngineCall :=
  if !self.initialized then ((), self, calls)
  else ((), self, calls ++ [.win_sparkle_install_update])

/-- `void setAutomaticChecks(bool enabled)`. -/
def setAutomaticChecks (enabled : Bool) (self : WinSparkleManager) (calls : List EngineCall) :
    Unit × WinSparkleManager × List EngineCall :=
  if !self.initialized then ((), self, calls)
  else ((), self,
    calls ++ [.win_sparkle_set_automatic_check_for_updates (if enabled then 1 else 0)])

/-- `void setAutomaticDownloads(bool enabled)`. -/
def setAutomaticDownloads (enabled : Bool) (self : WinSparkleManager) (calls : List EngineCall) :
    Unit × WinSparkleManager × List EngineCall :=
  if !self.initialized then ((), self, calls)
  else ((), self,
    calls ++ [.win_sparkle_set_automatically_download_updates (if enabled then 1 else 0)])

/-- `bool isUpdateInProgress()`. -/
def isUpdateInProgress (eng : Engine) (self : WinSparkleManager) (calls : List EngineCall) :
    Bool × WinSparkleManager × List EngineCall :=
  if !self.initialized then (false, self, calls)
  else (decide (eng.update_in_progress calls ≠ 0), self,
    calls ++ [.win_sparkle_get_update_in_progress])

/-- `void cleanup()`. -/
def cleanup (self : WinSparkleManager) (calls : List EngineCall) :
    Unit × WinSparkleManager × List EngineCall :=
  if self.initialized then
    ((), { self with initialized := false }, calls ++ [.win_sparkle_cleanup])
  else ((), self, calls)

/-- The body of the destructor `~WinSparkleManager()`: it runs `cleanup()`.  (No `delete`
occurs in the sources; releasing the object's storage is not modelled.) -/
def destruct (self : WinSparkleManager) (calls : List EngineCall) :
    Unit × WinSparkleManager × List EngineCall :=
  cleanup self calls

end WinSparkleManager

/-! ## The process state -/

/-- The state of the process: the static pointer `WinSparkleManager::instance`, the objects
created by `new` and the log of engine calls. -/
structure World where
  instance_ : Option Nat
  heap : List WinSparkleManager
  calls : List EngineCall
  deriving DecidableEq, Repr

/-- The state at program start: `instance = nullptr`, nothing allocated, no call made. -/
def World.initial : World :=
  { instance_ := none, heap := [], calls := [] }

/-- The static pointer is null or addresses an object. -/
def World.wf (w : World) : Bool :=
  match w.instance_ with
  | none => true
  | some p => decide (p < w.heap.length)

/-- A method call `this->method()`. -/
def World.call {α : Type} (w : World) (this : Nat)
    (method : WinSparkleManager → List EngineCall → α × WinSparkleManager × List EngineCall) :
    Option (α × World) :=
  match w.heap[this]? with
  | none => none
  | some obj =>
    match method obj w.calls with
    | (r, obj1, calls1) => some (r, { w with heap := w.heap.set this obj1, calls := calls1 })

/-- `static WinSparkleManager* getInstance()`. -/
def getInstance (w : World) : Nat × World :=
  match w.instance_ with
  | none =>
    match WinSparkleManager.construct w.calls with
    | (obj, calls1) =>
      (w.heap.length,
        { instance_ := some w.heap.length, heap := w.heap ++ [obj], calls := calls1 })
  | some p => (p, w)

/-! ## `WinSparkleCLI::main` and the exported functions -/

/-- `static int WinSparkleCLI::main(int argc, char* argv[])`; `argc` is the length of
`argv`. -/
def WinSparkleCLI.main (argv : List String) (w : World) : Option (Int × World) :=
  if argv.length < 2 then some (1, w)
  else
    let command := argv.getD 1 ""
    match getInstance w with
    | (manager, w1) =>
      if command = "check" then
        (w1.call manager WinSparkleManager.checkForUpdates).map (fun r => (0, r.2))
      else if command = "install" then
        (w1.call manager WinSparkleManager.installUpdate).map (fun r => (0, r.2))
      else if command = "background" then
        (w1.call manager WinSparkleManager.checkForUpdatesInBackground).map (fun r => (0, r.2))
      else some (1, w1)

/-- The program entry point `int main(int argc, char* argv[])`. -/
def main (argv : List String) (w : World) : Option (Int × World) :=
  WinSparkleCLI.main argv w

/-- Exported `void CheckForUpdates()`. -/
def CheckForUpdates (w : World) : Option World :=
  match getInstance w with
  | (p, w1) => (w1.call p WinSparkleManager.checkForUpdates).map (fun r => r.2)

/-- Exported `void CheckForUpdatesInBackground()`. -/
def CheckForUpdatesInBackground (w : World) : Option World :=
  match getInstance w with
  | (p, w1) => (w1.call p WinSparkleManager.checkForUpdatesInBackground).map (fun r => r.2)

/-- Exported `void InstallUpdate()`. -/
def InstallUpdate (w : World) : Option World :=
  match getInstance w with
  | (p, w1) => (w1.call p WinSparkleManager.installUpdate).map (fun r => r.2)

/-- Exported `void SetAutomaticChecks(int enabled)`. -/
def SetAutomaticChecks (enabled : Int) (w : World) : Option World :=
  match getInstance w with
  | (p, w1) =>
    (w1.call p (WinSparkleManager.setAutomaticChecks (decide (enabled ≠ 0)))).map (fun r => r.2)

/-- Exported `void SetAutomaticDownloads(int enabled)`. -/
def SetAutomaticDownloads (enabled : Int) (w : World) : Option World :=
  match getInstance w with
  | (p, w1) =>
    (w1.call p (WinSparkleManager.setAutomaticDownloads (decide (enabled ≠ 0)))).map
      (fun r => r.2)

/-- Exported `int IsUpdateInProgress()`. -/
def IsUpdateInProgress (eng : Engine) (w : World) : Option (Int × World) :=
  match getInstance w with
  | (p, w1) =>
    (w1.call p (WinSparkleManager.isUpdateInProgress eng)).map
      (fun r => ((if r.1 then 1 else 0), r.2))

/-! ## Sequences of client calls -/

/-- A façade method called on the object the static pointer addresses (the only
`WinSparkleManager` a client can hold, the constructor being private); with no object to
call it on, the call cannot be made. -/
def World.onInstance {α : Type} (w : World)
    (method : WinSparkleManager → List EngineCall → α × WinSparkleManager × List EngineCall) :
    Option (α × World) :=
  match w.instance_ with
  | none => none
  | some p => w.call p method

/-- The calls a client can make: `getInstance()`, the public methods of the manager, the
exported functions and the command-line entry point. -/
inductive Op where
  | getInstance
  | checkForUpdates
  | checkForUpdatesInBackground
  | installUpdate
  | setAutomaticChecks (enabled : Bool)
  | setAutomaticDownloads (enabled : Bool)
  | isUpdateInProgress
  | cleanup
  | destruct
  | CheckForUpdates
  | CheckForUpdatesInBackground
  | InstallUpdate
  | SetAutomaticChecks (enabled : Int)
  | SetAutomaticDownloads (enabled : Int)
  | IsUpdateInProgress
  | cliMain (argv : List String)
  deriving DecidableEq, Repr

/-- The state after one client call (results are dropped). -/
def step (eng : Engine) (w : World) : Op → Option World
  | .getInstance => some (getInstance w).2
  | .checkForUpdates => (w.onInstance WinSparkleManager.checkForUpdates).map (fun r => r.2)
  | .checkForUpdatesInBackground =>
      (w.onInstance WinSparkleManager.checkForUpdatesInBackground).map (fun r => r.2)
  | .installUpdate => (w.onInstance WinSparkleManager.installUpdate).map (fun r => r.2)
  | .setAutomaticChecks enabled =>
      (w.onInstance (WinSparkleManager.setAutomaticChecks enabled)).map (fun r => r.2)
  | .setAutomaticDownloads enabled =>
      (w.onInstance (WinSparkleManager.setAutomaticDownloads enabled)).map (fun r => r.2)
  | .isUpdateInProgress =>
      (w.onInstance (WinSparkleManager.isUpdateInProgress eng)).map (fun r => r.2)
  | .cleanup => (w.onInstance WinSparkleManager.cleanup).map (fun r => r.2)
  | .destruct => (w.onInstance WinSparkleManager.destruct).map (fun r => r.2)
  | .CheckForUpdates => CheckForUpdates w
  | .CheckForUpdatesInBackground => CheckForUpdatesInBackground w
  | .InstallUpdate => InstallUpdate w
  | .SetAutomaticChecks enabled => SetAutomaticChecks enabled w
  | .SetAutomaticDownloads enabled => SetAutomaticDownloads enabled w
  | .IsUpdateInProgress => (IsUpdateInProgress eng w).map (fun r => r.2)
  | .cliMain argv => (WinSparkleCLI.main argv w).map (fun r => r.2)

/-- The state after a sequence of client calls, made one after the other. -/
def run (eng : Engine) : List Op → World → Option World
  | [], w => some w
  | op :: ops, w =>
    match step eng w op with
    | none => none
    | some w1 => run eng ops w1

/-- Whether the static pointer addresses an object whose `initialized` flag is set. -/
def World.instanceInitialized (w : World) : Bool :=
  match w.instance_ with
  | none => false
  | some p =>
    match w.heap[p]? with
    | none => false
    | some obj => obj.initialized

/-! ## `ECBotWinSparkleUpdater` -/

namespace ECBotWinSparkleUpdater

/-- The constructor `ECBotWinSparkleUpdater()`. -/
def construct (calls : List EngineCall) : List EngineCall :=
  calls ++ [ .win_sparkle_set_appcast_url "https://your-server.com/appcast.xml",
             .win_sparkle_set_app_details "ECBot" "ECBot" "1.0.0",
             .win_sparkle_init ]

/-- The destructor `~ECBotWinSparkleUpdater()`. -/
def destruct (calls : List EngineCall) : List EngineCall :=
  calls ++ [.win_sparkle_cleanup]

/-- `void checkForUpdates()`. -/
def checkForUpdates (calls : List EngineCall) : List EngineCall :=
  calls ++ [.win_sparkle_check_update_with_ui]

/-- `void checkForUpdatesInBackground()`. -/
def checkForUpdatesInBackground (calls : List EngineCall) : List EngineCall :=
  calls ++ [.win_sparkle_check_update_without_ui]

end ECBotWinSparkleUpdater

/-! ## Example states and engines -/

/-- The state reached from program start by `getInstance()` followed by `cleanup()`: the
manager exists and its `initialized` flag is cleared. -/
def World.cleanedUp : World :=
  { instance_ := some 0, heap := [{ initialized := false }],
    calls := WinSparkleManager.initializeSparkleCalls ++ [.win_sparkle_cleanup] }

/-- The state reached from program start by the first `getInstance()`. -/
def World.fresh : World :=
  { instance_ := some 0, heap := [{ initialized := true }],
    calls := WinSparkleManager.initializeSparkleCalls }

/-- An engine that reports an update in progress from the moment a check was requested. -/
def Engine.busyAfterCheck : Engine :=
  { update_in_progress := fun calls => if calls.any EngineCall.isCheck then 1 else 0 }

/-- An engine that never reports an update in progress. -/
def Engine.idle : Engine :=
  { update_in_progress := fun _ => 0 }

/-! ## The façade operations and the invariant of a constructed manager -/

/-- The façade operation on the singleton, `getInstance()->method(...)`, which the exported
functions are compared with. -/
def viaInstance {α : Type}
    (method : WinSparkleManager → List EngineCall → α × WinSparkleManager × List EngineCall)
    (w : World) : Option (α × World) :=
  (getInstance w).2.call (getInstance w).1 method

/-- The manager has been constructed: the static pointer addresses the one object of the
heap, the log starts with the calls of `initializeSparkle` and holds one
`win_sparkle_init`. -/
def World.Constructed (w : World) : Prop :=
  w.instance_ = some 0 ∧ w.heap.length = 1 ∧
    WinSparkleManager.initializeSparkleCalls <+: w.calls ∧
    w.calls.count .win_sparkle_init = 1

/-! ## Auxiliary facts -/

theorem World.call_some {α : Type} (w : World) (this : Nat) (obj : WinSparkleManager)
    (method : WinSparkleManager → List EngineCall → α × WinSparkleManager × List EngineCall)
    (h : w.heap[this]? = some obj) :
    w.call this method =
      some ((method obj w.calls).1,
        { w with heap := w.heap.set this (method obj w.calls).2.1,
                 calls := (method obj w.calls).2.2 }) := by
  simp [World.call, h]

theorem getInstance_of_null (w : World) (h : w.instance_ = none) :
    getInstance w =
      (w.heap.length,
        { instance_ := some w.heap.length, heap := w.heap ++ [{ initialized := true }],
          calls := w.calls ++ WinSparkleManager.initializeSparkleCalls }) := by
  simp [getInstance, h, WinSparkleManager.construct, WinSparkleManager.initializeSparkle]

theorem getInstance_of_some (w : World) (p : Nat) (h : w.instance_ = some p) :
    getInstance w = (p, w) := by
  simp [getInstance, h]

theorem getInstance_instance (w : World) :
    (getInstance w).2.instance_ = some (getInstance w).1 := by
  cases h : w.instance_ with
  | none => simp [getInstance_of_null w h]
  | some p => simp [getInstance_of_some w p h, h]

theorem getInstance_lookup (w : World) (h : w.wf = true) :
    ∃ obj, (getInstance w).2.heap[(getInstance w).1]? = some obj := by
  cases hi : w.instance_ with
  | none => exact ⟨{ initialized := true }, by simp [getInstance_of_null w hi]⟩
  | some p =>
    have hp : p < w.heap.length := by simpa [World.wf, hi] using h
    exact ⟨w.heap[p], by simp [getInstance_of_some w p hi, hp]⟩

theorem getInstance_call {α : Type} (w : World) (h : w.wf = true)
    (method : WinSparkleManager → List EngineCall → α × WinSparkleManager × List EngineCall) :
    ∃ r, (getInstance w).2.call (getInstance w).1 method = some r := by
  obtain ⟨obj, hobj⟩ := getInstance_lookup w h
  exact ⟨_, World.call_some _ _ obj method hobj⟩

theorem WinSparkleCLI.main_of_short (argv : List String) (w : World) (h : argv.length < 2) :
    WinSparkleCLI.main argv w = some (1, w) := by
  simp [WinSparkleCLI.main, h]

theorem WinSparkleCLI.main_of_command (argv : List String) (command : String) (w : World)
    (h : argv[1]? = some command) :
    WinSparkleCLI.main argv w =
      if command = "check" then
        ((getInstance w).2.call (getInstance w).1 WinSparkleManager.checkForUpdates).map
          (fun r => (0, r.2))
      else if command = "install" then
        ((getInstance w).2.call (getInstance w).1 WinSparkleManager.installUpdate).map
          (fun r => (0, r.2))
      else if command = "background" then
        ((getInstance w).2.call (getInstance w).1
          WinSparkleManager.checkForUpdatesInBackground).map (fun r => (0, r.2))
      else some (1, (getInstance w).2) := by
  have hlen : ¬ argv.length < 2 := by
    intro hl
    have : argv[1]? = none := by simp; omega
    simp [this] at h
  simp [WinSparkleCLI.main, hlen, List.getD, h]

/-! ## Method calls through a pointer -/

theorem set_of_lookup {α : Type} (l : List α) (i : Nat) (a : α) (h : l[i]? = some a) :
    l.set i a = l := by
  induction l generalizing i with
  | nil => rfl
  | cons x xs ih =>
    cases i with
    | zero =>
      have hx : x = a := by simpa using h
      simp [hx]
    | succ j =>
      have hj : xs[j]? = some a := by simpa using h
      simp [ih j hj]

theorem World.call_installUpdate (w : World) (this : Nat) (obj : WinSparkleManager)
    (h : w.heap[this]? = some obj) :
    w.call this WinSparkleManager.installUpdate =
      some ((), if obj.initialized then
        { w with calls := w.calls ++ [.win_sparkle_install_update] } else w) := by
  rw [World.call_some w this obj _ h]
  cases hi : obj.initialized <;>
    simp [WinSparkleManager.installUpdate, hi, set_of_lookup w.heap this obj h]

theorem World.call_checkForUpdates (w : World) (this : Nat) (obj : WinSparkleManager)
    (h : w.heap[this]? = some obj) :
    w.call this WinSparkleManager.checkForUpdates =
      some ((), if obj.initialized then
        { w with calls := w.calls ++ [.win_sparkle_check_update_with_ui] } else w) := by
  rw [World.call_some w this obj _ h]
  cases hi : obj.initialized <;>
    simp [WinSparkleManager.checkForUpdates, hi, set_of_lookup w.heap this obj h]

theorem World.call_checkForUpdatesInBackground (w : World) (this : Nat)
    (obj : WinSparkleManager) (h : w.heap[this]? = some obj) :
    w.call this WinSparkleManager.checkForUpdatesInBackground =
      some ((), if obj.initialized then
        { w with calls := w.calls ++ [.win_sparkle_check_update_without_ui] } else w) := by
  rw [World.call_some w this obj _ h]
  cases hi : obj.initialized <;>
    simp [WinSparkleManager.checkForUpdatesInBackground, hi, set_of_lookup w.heap this obj h]

theorem World.call_setAutomaticChecks (w : World) (this : Nat) (obj : WinSparkleManager)
    (enabled : Bool) (h : w.heap[this]? = some obj) :
    w.call this (WinSparkleManager.setAutomaticChecks enabled) =
      some ((), if obj.initialized then
        { w with calls := w.calls ++
            [.win_sparkle_set_automatic_check_for_updates (if enabled then 1 else 0)] }
        else w) := by
  rw [World.call_some w this obj _ h]
  cases hi : obj.initialized <;>
    simp [WinSparkleManager.setAutomaticChecks, hi, set_of_lookup w.heap this obj h]

theorem World.call_setAutomaticDownloads (w : World) (this : Nat) (obj : WinSparkleManager)
    (enabled : Bool) (h : w.heap[this]? = some obj) :
    w.call this (WinSparkleManager.setAutomaticDownloads enabled) =
      some ((), if obj.initialized then
        { w with calls := w.calls ++
            [.win_sparkle_set_automatically_download_updates (if enabled then 1 else 0)] }
        else w) := by
  rw [World.call_some w this obj _ h]
  cases hi : obj.initialized <;>
    simp [WinSparkleManager.setAutomaticDownloads, hi, set_of_lookup w.heap this obj h]

theorem World.call_isUpdateInProgress (eng : Engine) (w : World) (this : Nat)
    (obj : WinSparkleManager) (h : w.heap[this]? = some obj) :
    w.call this (WinSparkleManager.isUpdateInProgress eng) =
      some (if obj.initialized then
        (decide (eng.update_in_progress w.calls ≠ 0),
          { w with calls := w.calls ++ [.win_sparkle_get_update_in_progress] })
        else (false, w)) := by
  rw [World.call_some w this obj _ h]
  cases hi : obj.initialized <;>
    simp [WinSparkleManager.isUpdateInProgress, hi, set_of_lookup w.heap this obj h]

theorem World.call_cleanup (w : World) (this : Nat) (obj : WinSparkleManager)
    (h : w.heap[this]? = some obj) :
    w.call this WinSparkleManager.cleanup =
      some ((), if obj.initialized then
        { w with heap := w.heap.set this { initialized := false },
                 calls := w.calls ++ [.win_sparkle_cleanup] } else w) := by
  rw [World.call_some w this obj _ h]
  cases hi : obj.initialized <;>
    simp [WinSparkleManager.cleanup, hi, set_of_lookup w.heap this obj h]

theorem UpdateConfig.after_append (c : UpdateConfig) (xs ys : List EngineCall) :
    c.after (xs ++ ys) = (c.after xs).after ys := by
  simp [UpdateConfig.after, List.foldl_append]

/-! ## The exit code of the command-line entry point -/

/-- C1: for every argument vector (and every state in which the static pointer is null or
addresses an object) `WinSparkleCLI::main`, and with it the program's `main`, returns; the
exit code is 1 when `argc < 2` and when `argv[1]` is none of the strings "check", "install",
"background", and 0 when `argv[1]` is one of the three, whatever follows it. -/
theorem cli_main_exit_code (argv : List String) (w : World) (h : w.wf = true) :
    ∃ code w1, WinSparkleCLI.main argv w = some (code, w1) ∧
      main argv w = some (code, w1) ∧
      (argv.length < 2 → code = 1) ∧
      (∀ command, argv[1]? = some command →
        command ≠ "check" → command ≠ "install" → command ≠ "background" → code = 1) ∧
      (∀ command, argv[1]? = some command →
        command = "check" ∨ command = "install" ∨ command = "background" → code = 0) := by
  cases hc : argv[1]? with
  | none =>
    have hlen : argv.length < 2 := by
      have := List.getElem?_eq_none_iff.mp hc
      omega
    exact ⟨1, w, WinSparkleCLI.main_of_short argv w hlen, WinSparkleCLI.main_of_short argv w hlen,
      fun _ => rfl, fun _ _ _ _ _ => rfl, fun _ hn => by simp at hn⟩
  | some c =>
    have hlen : ¬ argv.length < 2 := by
      intro hl
      have : argv[1]? = none := by simp; omega
      simp [this] at hc
    obtain ⟨r1, hr1⟩ := getInstance_call w h WinSparkleManager.checkForUpdates
    obtain ⟨r2, hr2⟩ := getInstance_call w h WinSparkleManager.installUpdate
    obtain ⟨r3, hr3⟩ := getInstance_call w h WinSparkleManager.checkForUpdatesInBackground
    have hm := WinSparkleCLI.main_of_command argv c w hc
    by_cases c1 : c = "check"
    · refine ⟨0, r1.2, ?_, ?_, fun hl => absurd hl hlen, ?_, fun _ _ _ => rfl⟩
      · rw [hm]; simp [c1, hr1]
      · rw [main, hm]; simp [c1, hr1]
      · intro command hcmd n1 _ _
        exact absurd ((Option.some.inj hcmd).symm.trans c1) n1
    · by_cases c2 : c = "install"
      · refine ⟨0, r2.2, ?_, ?_, fun hl => absurd hl hlen, ?_, fun _ _ _ => rfl⟩
        · rw [hm]; simp [c2, hr2]
        · rw [main, hm]; simp [c2, hr2]
        · intro command hcmd _ n2 _
          exact absurd ((Option.some.inj hcmd).symm.trans c2) n2
      · by_cases c3 : c = "background"
        · refine ⟨0, r3.2, ?_, ?_, fun hl => absurd hl hlen, ?_, fun _ _ _ => rfl⟩
          · rw [hm]; simp [c3, hr3]
          · rw [main, hm]; simp [c3, hr3]
          · intro command hcmd _ _ n3
            exact absurd ((Option.some.inj hcmd).symm.trans c3) n3
        · refine ⟨1, (getInstance w).2, ?_, ?_, fun _ => rfl, fun _ _ _ _ _ => rfl, ?_⟩
          · rw [hm]; simp [c1, c2, c3]
          · rw [main, hm]; simp [c1, c2, c3]
          · intro command hcmd hor
            have hcmd := (Option.some.inj hcmd).symm
            rcases hor with e | e | e
            · exact absurd (hcmd.symm.trans e) c1
            · exact absurd (hcmd.symm.trans e) c2
            · exact absurd (hcmd.symm.trans e) c3

/-- C1, at concrete inputs: from the initial state, no command and the near misses "Check",
"check " and "checks" give exit code 1, "install" followed by further arguments gives 0. -/
theorem cli_main_exit_code_witness :
    World.initial.wf = true ∧
    (WinSparkleCLI.main ["cli"] World.initial).map (fun r => r.1) = some 1 ∧
    (WinSparkleCLI.main ["cli", "Check"] World.initial).map (fun r => r.1) = some 1 ∧
    (WinSparkleCLI.main ["cli", "check "] World.initial).map (fun r => r.1) = some 1 ∧
    (WinSparkleCLI.main ["cli", "checks"] World.initial).map (fun r => r.1) = some 1 ∧
    (WinSparkleCLI.main ["cli", "install", "now", "-v"] World.initial).map (fun r => r.1)
      = some 0 ∧
    (∃ code w1, WinSparkleCLI.main ["cli", "background"] World.initial = some (code, w1) ∧
      main ["cli", "background"] World.initial = some (code, w1) ∧ code = 0) := by
  refine ⟨by decide, by decide, by decide, by decide, by decide, by decide, ?_⟩
  obtain ⟨code, w1, h1, h2, _, _, h5⟩ :=
    cli_main_exit_code ["cli", "background"] World.initial (by decide)
  exact ⟨code, w1, h1, h2, h5 "background" (by decide) (by decide)⟩

/-- C2 (as amended): for a recognised command `WinSparkleCLI::main` returns 0 whether or not
the update operation was performed: it returns 0 in every state, and when the manager exists
with its `initialized` flag cleared the command changes nothing (no engine call is made)
and the exit code is still 0. -/
theorem cli_exit_code_ignores_outcome (argv : List String) (command : String) (w : World)
    (h : w.wf = true) (hcmd : argv[1]? = some command)
    (hrec : command = "check" ∨ command = "install" ∨ command = "background") :
    ∃ w1, WinSparkleCLI.main argv w = some (0, w1) ∧
      (∀ p obj, w.instance_ = some p → w.heap[p]? = some obj → obj.initialized = false →
        w1 = w) := by
  have hm := WinSparkleCLI.main_of_command argv command w hcmd
  obtain ⟨obj, hobj⟩ := getInstance_lookup w h
  have key : ∀ p o, w.instance_ = some p → w.heap[p]? = some o → o.initialized = false →
      obj.initialized = false ∧ (getInstance w).2 = w := by
    intro p o hp ho hi
    rw [getInstance_of_some w p hp] at hobj
    simp only [] at hobj
    rw [ho] at hobj
    rw [getInstance_of_some w p hp]
    exact ⟨by rw [← Option.some.inj hobj]; exact hi, rfl⟩
  rcases hrec with e | e | e
  · refine ⟨if obj.initialized then { (getInstance w).2 with
        calls := (getInstance w).2.calls ++ [.win_sparkle_check_update_with_ui] }
      else (getInstance w).2, ?_, ?_⟩
    · rw [hm, World.call_checkForUpdates _ _ obj hobj]; simp [e]
    · intro p o hp ho hi
      obtain ⟨h1, h2⟩ := key p o hp ho hi
      simp [h1, h2]
  · refine ⟨if obj.initialized then { (getInstance w).2 with
        calls := (getInstance w).2.calls ++ [.win_sparkle_install_update] }
      else (getInstance w).2, ?_, ?_⟩
    · rw [hm, World.call_installUpdate _ _ obj hobj]; simp [e]
    · intro p o hp ho hi
      obtain ⟨h1, h2⟩ := key p o hp ho hi
      simp [h1, h2]
  · refine ⟨if obj.initialized then { (getInstance w).2 with
        calls := (getInstance w).2.calls ++ [.win_sparkle_check_update_without_ui] }
      else (getInstance w).2, ?_, ?_⟩
    · rw [hm, World.call_checkForUpdatesInBackground _ _ obj hobj]; simp [e]
    · intro p o hp ho hi
      obtain ⟨h1, h2⟩ := key p o hp ho hi
      simp [h1, h2]

/-- C2, at a concrete input: with "install" as the command and the manager not initialized,
the exit code is 0 and the state is unchanged. -/
theorem cli_exit_code_ignores_outcome_witness :
    ∃ w1, WinSparkleCLI.main ["winsparkle-cli.exe", "install"] World.cleanedUp = some (0, w1) ∧
      (∀ p obj, World.cleanedUp.instance_ = some p → World.cleanedUp.heap[p]? = some obj →
        obj.initialized = false → w1 = World.cleanedUp) :=
  cli_exit_code_ignores_outcome ["winsparkle-cli.exe", "install"] "install" World.cleanedUp
    (by decide) (by decide) (by decide)

/-- C2 as stated fails: after `getInstance()` and `cleanup()` the manager is not initialized,
each recognised command then performs no operation (the state, and with it the log of engine
calls, is unchanged) and `WinSparkleCLI::main` still returns 0, not 1; and at program start,
when no check was ever requested, "install" returns 0 as well. -/
theorem cli_exit_code_zero_without_operation :
    (getInstance World.initial).2.onInstance WinSparkleManager.cleanup
        = some ((), World.cleanedUp) ∧
    World.cleanedUp.instanceInitialized = false ∧
    WinSparkleCLI.main ["winsparkle-cli.exe", "install"] World.cleanedUp
        = some (0, World.cleanedUp) ∧
    WinSparkleCLI.main ["winsparkle-cli.exe", "check"] World.cleanedUp
        = some (0, World.cleanedUp) ∧
    WinSparkleCLI.main ["winsparkle-cli.exe", "background"] World.cleanedUp
        = some (0, World.cleanedUp) ∧
    World.initial.calls.any EngineCall.isCheck = false ∧
    (WinSparkleCLI.main ["winsparkle-cli.exe", "install"] World.initial).map (fun r => r.1)
        = some 0 := by
  decide

/-! ## `installUpdate` -/

/-- C3 (as amended): `installUpdate()` returns no status and looks at nothing but the
`initialized` flag: on an initialized manager it calls `win_sparkle_install_update` exactly
once, on a manager that is not initialized it does nothing; the manager itself is left as it
was. -/
theorem installUpdate_guarded_by_initialized (w : World) (this : Nat) (obj : WinSparkleManager)
    (h : w.heap[this]? = some obj) :
    ∃ w1, w.call this WinSparkleManager.installUpdate = some ((), w1) ∧
      w1.instance_ = w.instance_ ∧ w1.heap = w.heap ∧
      (obj.initialized = true → w1.calls = w.calls ++ [.win_sparkle_install_update]) ∧
      (obj.initialized = false → w1.calls = w.calls) := by
  refine ⟨_, World.call_installUpdate w this obj h, ?_, ?_, ?_, ?_⟩ <;>
    cases hi : obj.initialized <;> simp

/-- C3, at a concrete input: `installUpdate()` on the manager the first `getInstance()`
created. -/
theorem installUpdate_guarded_by_initialized_witness :
    ∃ w1, World.fresh.call 0 WinSparkleManager.installUpdate = some ((), w1) ∧
      w1.instance_ = World.fresh.instance_ ∧ w1.heap = World.fresh.heap ∧
      ((WinSparkleManager.mk true).initialized = true →
        w1.calls = World.fresh.calls ++ [.win_sparkle_install_update]) ∧
      ((WinSparkleManager.mk true).initialized = false → w1.calls = World.fresh.calls) :=
  installUpdate_guarded_by_initialized World.fresh 0 { initialized := true } (by decide)

/-- C3 as stated fails: on the freshly constructed manager, for which no check was ever
requested, `installUpdate()` does call `win_sparkle_install_update`, and so does the exported
`InstallUpdate()` from program start. -/
theorem installUpdate_on_fresh_manager_calls_engine :
    getInstance World.initial = (0, World.fresh) ∧
    World.fresh.calls.any EngineCall.isCheck = false ∧
    World.fresh.onInstance WinSparkleManager.installUpdate
      = some ((), { World.fresh with
          calls := WinSparkleManager.initializeSparkleCalls ++ [.win_sparkle_install_update] }) ∧
    (InstallUpdate World.initial).map (fun w => w.calls.count .win_sparkle_install_update)
      = some 1 := by
  decide

/-! ## Checks while an update is in progress -/

/-- C4 (as amended): the wrapper keeps no session state.  In every state in which
`isUpdateInProgress()` returns true, a further `checkForUpdates()` issues one
`win_sparkle_check_update_with_ui` and a further `checkForUpdatesInBackground()` one
`win_sparkle_check_update_without_ui`; two successive `checkForUpdates()` calls issue two. -/
theorem check_issued_while_in_progress (eng : Engine) (w : World) (this : Nat) (w1 : World)
    (h : w.call this (WinSparkleManager.isUpdateInProgress eng) = some (true, w1)) :
    w1.call this WinSparkleManager.checkForUpdates
      = some ((), { w1 with calls := w1.calls ++ [.win_sparkle_check_update_with_ui] }) ∧
    w1.call this WinSparkleManager.checkForUpdatesInBackground
      = some ((), { w1 with calls := w1.calls ++ [.win_sparkle_check_update_without_ui] }) ∧
    ({ w1 with calls := w1.calls ++ [.win_sparkle_check_update_with_ui] } : World).call this
        WinSparkleManager.checkForUpdates
      = some ((), { w1 with calls := w1.calls ++
          [.win_sparkle_check_update_with_ui, .win_sparkle_check_update_with_ui] }) := by
  cases hobj : w.heap[this]? with
  | none => simp [World.call, hobj] at h
  | some obj =>
    rw [World.call_isUpdateInProgress eng w this obj hobj] at h
    cases hi : obj.initialized with
    | false => simp [hi] at h
    | true =>
      simp only [hi, if_true, Option.some.injEq, Prod.mk.injEq] at h
      have hobj1 : w1.heap[this]? = some obj := by rw [← h.2]; exact hobj
      refine ⟨?_, ?_, ?_⟩
      · rw [World.call_checkForUpdates w1 this obj hobj1]; simp [hi]
      · rw [World.call_checkForUpdatesInBackground w1 this obj hobj1]; simp [hi]
      · have h2 := World.call_checkForUpdates
          { w1 with calls := w1.calls ++ [.win_sparkle_check_update_with_ui] } this obj hobj1
        rw [h2]; simp [hi]

/-- C4, at a concrete input: a check is requested on the fresh manager, the engine then
reports an update in progress, and further checks are issued all the same. -/
theorem check_issued_while_in_progress_witness :
    World.fresh.call 0 WinSparkleManager.checkForUpdates
      = some ((), { World.fresh with
          calls := World.fresh.calls ++ [.win_sparkle_check_update_with_ui] }) ∧
    ({ World.fresh with
        calls := World.fresh.calls ++ [.win_sparkle_check_update_with_ui,
          .win_sparkle_get_update_in_progress] } : World).call 0
        WinSparkleManager.checkForUpdates
      = some ((), { World.fresh with
          calls := World.fresh.calls ++ [.win_sparkle_check_update_with_ui,
            .win_sparkle_get_update_in_progress, .win_sparkle_check_update_with_ui] }) :=
  ⟨by decide,
    (check_issued_while_in_progress Engine.busyAfterCheck
      { World.fresh with calls := World.fresh.calls ++ [.win_sparkle_check_update_with_ui] } 0
      { World.fresh with
        calls := World.fresh.calls ++ [.win_sparkle_check_update_with_ui,
          .win_sparkle_get_update_in_progress] } (by decide)).1⟩

/-- C4 as stated fails: with an engine that reports an update in progress once a check was
requested, `CheckForUpdates()`, `IsUpdateInProgress()` (which returns 1) and a second
`CheckForUpdates()` from program start leave two `win_sparkle_check_update_with_ui` calls in
the log, not one; the second class, `ECBotWinSparkleUpdater`, issues one call per
`checkForUpdates()` too. -/
theorem second_check_started_while_in_progress :
    ((CheckForUpdates World.initial).bind (IsUpdateInProgress Engine.busyAfterCheck)).map
      (fun r => r.1) = some 1 ∧
    ((run Engine.busyAfterCheck [.CheckForUpdates, .IsUpdateInProgress, .CheckForUpdates]
      World.initial).map (fun w => w.calls.count .win_sparkle_check_update_with_ui)) = some 2 ∧
    (ECBotWinSparkleUpdater.checkForUpdates (ECBotWinSparkleUpdater.checkForUpdates
      (ECBotWinSparkleUpdater.construct []))).count .win_sparkle_check_update_with_ui = 2 := by
  decide

/-! ## `isUpdateInProgress` -/

/-- C5: `isUpdateInProgress()` is a pure read: it returns, leaves the static pointer and every
object (so the `initialized` flag) unchanged, issues no engine call or exactly the status
query `win_sparkle_get_update_in_progress`, leaves the configuration unchanged, and its
result is true if and only if the manager is initialized and the engine reports a non-zero
status. -/
theorem isUpdateInProgress_pure_read (eng : Engine) (c : UpdateConfig) (w : World) (this : Nat)
    (obj : WinSparkleManager) (h : w.heap[this]? = some obj) :
    ∃ result w1, w.call this (WinSparkleManager.isUpdateInProgress eng) = some (result, w1) ∧
      w1.instance_ = w.instance_ ∧ w1.heap = w.heap ∧
      w1.heap[this]? = some obj ∧
      (w1.calls = w.calls ∨ w1.calls = w.calls ++ [.win_sparkle_get_update_in_progress]) ∧
      c.after w1.calls = c.after w.calls ∧
      (result = true ↔ obj.initialized = true ∧ eng.update_in_progress w.calls ≠ 0) := by
  refine ⟨_, _, (by rw [World.call_isUpdateInProgress eng w this obj h]), ?_⟩
  cases hi : obj.initialized <;>
    simp [h, UpdateConfig.after_append, UpdateConfig.after, UpdateConfig.apply]

/-- C5, at a concrete input: the status query on the fresh manager with an idle engine. -/
theorem isUpdateInProgress_pure_read_witness :
    ∃ result w1, World.fresh.call 0 (WinSparkleManager.isUpdateInProgress Engine.idle)
        = some (result, w1) ∧
      w1.instance_ = World.fresh.instance_ ∧ w1.heap = World.fresh.heap ∧
      w1.heap[0]? = some { initialized := true } ∧
      (w1.calls = World.fresh.calls ∨
        w1.calls = World.fresh.calls ++ [.win_sparkle_get_update_in_progress]) ∧
      (UpdateConfig.mk "" "" "" "" false false 0).after w1.calls
        = (UpdateConfig.mk "" "" "" "" false false 0).after World.fresh.calls ∧
      (result = true ↔ (WinSparkleManager.mk true).initialized = true ∧
        Engine.idle.update_in_progress World.fresh.calls ≠ 0) :=
  isUpdateInProgress_pure_read Engine.idle (UpdateConfig.mk "" "" "" "" false false 0)
    World.fresh 0 { initialized := true } (by decide)

/-! ## The exported functions -/

theorem getInstance_calls (w : World) :
    (getInstance w).2.calls = w.calls ∨
      (w.instance_ = none ∧
        (getInstance w).2.calls = w.calls ++ WinSparkleManager.initializeSparkleCalls) := by
  cases h : w.instance_ with
  | none => right; simp [getInstance_of_null w h]
  | some p => left; simp [getInstance_of_some w p h]

/-- C6: each exported function returns and has exactly the effect of the façade operation on
the singleton: `CheckForUpdates`, `CheckForUpdatesInBackground` and `InstallUpdate` that of
`getInstance()->checkForUpdates()`, `->checkForUpdatesInBackground()`, `->installUpdate()`;
`SetAutomaticChecks(n)` and `SetAutomaticDownloads(n)` that of the setter called with false
for `n = 0` and with true for every other integer, the engine receiving 0 or 1; and
`IsUpdateInProgress()` returns 1 when `isUpdateInProgress()` is true and 0 when it is false. -/
theorem exported_functions_refine_facade (eng : Engine) (n : Int) (w : World)
    (h : w.wf = true) :
    (∃ r, viaInstance WinSparkleManager.checkForUpdates w = some r ∧
      CheckForUpdates w = some r.2) ∧
    (∃ r, viaInstance WinSparkleManager.checkForUpdatesInBackground w = some r ∧
      CheckForUpdatesInBackground w = some r.2) ∧
    (∃ r, viaInstance WinSparkleManager.installUpdate w = some r ∧
      InstallUpdate w = some r.2) ∧
    (∃ r, viaInstance (WinSparkleManager.setAutomaticChecks (if n = 0 then false else true)) w
        = some r ∧
      SetAutomaticChecks n w = some r.2 ∧
      (r.2.calls = (getInstance w).2.calls ∨
        r.2.calls = (getInstance w).2.calls ++
          [.win_sparkle_set_automatic_check_for_updates (if n = 0 then 0 else 1)])) ∧
    (∃ r, viaInstance (WinSparkleManager.setAutomaticDownloads (if n = 0 then false else true)) w
        = some r ∧
      SetAutomaticDownloads n w = some r.2 ∧
      (r.2.calls = (getInstance w).2.calls ∨
        r.2.calls = (getInstance w).2.calls ++
          [.win_sparkle_set_automatically_download_updates (if n = 0 then 0 else 1)])) ∧
    (∃ b w1, viaInstance (WinSparkleManager.isUpdateInProgress eng) w = some (b, w1) ∧
      IsUpdateInProgress eng w = some ((if b then 1 else 0), w1)) := by
  obtain ⟨obj, hobj⟩ := getInstance_lookup w h
  have hdec : decide (n ≠ 0) = (if n = 0 then false else true) := by
    by_cases hn : n = 0 <;> simp [hn]
  refine ⟨?_, ?_, ?_, ?_, ?_, ?_⟩
  · refine ⟨_, World.call_checkForUpdates _ _ obj hobj, ?_⟩
    simp [CheckForUpdates, World.call_checkForUpdates _ _ obj hobj]
  · refine ⟨_, World.call_checkForUpdatesInBackground _ _ obj hobj, ?_⟩
    simp [CheckForUpdatesInBackground, World.call_checkForUpdatesInBackground _ _ obj hobj]
  · refine ⟨_, World.call_installUpdate _ _ obj hobj, ?_⟩
    simp [InstallUpdate, World.call_installUpdate _ _ obj hobj]
  · refine ⟨_, World.call_setAutomaticChecks _ _ obj _ hobj, ?_, ?_⟩
    · simp only [SetAutomaticChecks, hdec]
      rw [World.call_setAutomaticChecks _ _ obj _ hobj]; rfl
    · cases hi : obj.initialized <;> by_cases hn : n = 0 <;> simp [hn]
  · refine ⟨_, World.call_setAutomaticDownloads _ _ obj _ hobj, ?_, ?_⟩
    · simp only [SetAutomaticDownloads, hdec]
      rw [World.call_setAutomaticDownloads _ _ obj _ hobj]; rfl
    · cases hi : obj.initialized <;> by_cases hn : n = 0 <;> simp [hn]
  · have hcall := World.call_isUpdateInProgress eng _ _ obj hobj
    cases hi : obj.initialized with
    | false =>
      refine ⟨false, (getInstance w).2, ?_, ?_⟩
      · rw [viaInstance, hcall]; simp [hi]
      · simp [IsUpdateInProgress, hcall, hi]
    | true =>
      refine ⟨decide (eng.update_in_progress (getInstance w).2.calls ≠ 0),
        { (getInstance w).2 with
          calls := (getInstance w).2.calls ++ [.win_sparkle_get_update_in_progress] }, ?_, ?_⟩
      · rw [viaInstance, hcall]; simp [hi]
      · simp [IsUpdateInProgress, hcall, hi]

/-- C6, at a concrete input: the exported functions from program start, with the negative
argument -5. -/
theorem exported_functions_refine_facade_witness :
    (SetAutomaticChecks (-5) World.initial).map (fun w => w.calls)
      = some (WinSparkleManager.initializeSparkleCalls ++
          [.win_sparkle_set_automatic_check_for_updates 1]) ∧
    (SetAutomaticDownloads 0 World.fresh).map (fun w => w.calls)
      = some (WinSparkleManager.initializeSparkleCalls ++
          [.win_sparkle_set_automatically_download_updates 0]) ∧
    (∃ r, viaInstance WinSparkleManager.installUpdate World.initial = some r ∧
      InstallUpdate World.initial = some r.2) :=
  ⟨by decide, by decide,
    (exported_functions_refine_facade Engine.idle (-5) World.initial (by decide)).2.2.1⟩

/-! ## What each command-line command triggers -/

theorem getInstance_counts (w : World) :
    (getInstance w).2.calls.count .win_sparkle_check_update_with_ui
        = w.calls.count .win_sparkle_check_update_with_ui ∧
    (getInstance w).2.calls.count .win_sparkle_check_update_without_ui
        = w.calls.count .win_sparkle_check_update_without_ui ∧
    (getInstance w).2.calls.count .win_sparkle_install_update
        = w.calls.count .win_sparkle_install_update := by
  rcases getInstance_calls w with h | ⟨_, h⟩
  · simp [h]
  · rw [h]
    have c1 : WinSparkleManager.initializeSparkleCalls.count
        .win_sparkle_check_update_with_ui = 0 := by decide
    have c2 : WinSparkleManager.initializeSparkleCalls.count
        .win_sparkle_check_update_without_ui = 0 := by decide
    have c3 : WinSparkleManager.initializeSparkleCalls.count
        .win_sparkle_install_update = 0 := by decide
    simp [List.count_append, c1, c2, c3]

theorem lookup_of_instanceInitialized (w : World) (h : w.instanceInitialized = true) :
    ∃ p, w.instance_ = some p ∧ w.heap[p]? = some { initialized := true } := by
  unfold World.instanceInitialized at h
  cases hp : w.instance_ with
  | none => simp [hp] at h
  | some p =>
    cases ho : w.heap[p]? with
    | none => simp [hp, ho] at h
    | some obj =>
      simp only [hp, ho] at h
      cases obj with
      | mk i =>
        simp only at h
        exact ⟨p, rfl, by rw [ho, h]⟩

/-- C7: each recognised command triggers its own façade operation and no other.  When the
manager `getInstance()` returns is initialized, "check" returns 0 and appends exactly one
`win_sparkle_check_update_with_ui` to what `getInstance()` left, adding no silent check and no
install to the log; "background" does so with `win_sparkle_check_update_without_ui` and
"install" with `win_sparkle_install_update`.  A missing command leaves the state untouched
(no engine call at all); an unknown command does what `getInstance()` does and nothing more:
no check and no install is added, and when no manager existed it is constructed and
initialized. -/
theorem cli_command_dispatch (argv : List String) (w : World) :
    (argv.length < 2 → WinSparkleCLI.main argv w = some (1, w)) ∧
    (argv[1]? = some "check" → (getInstance w).2.instanceInitialized = true →
      ∃ w1, WinSparkleCLI.main argv w = some (0, w1) ∧
        w1.calls = (getInstance w).2.calls ++ [.win_sparkle_check_update_with_ui] ∧
        w1.calls.count .win_sparkle_check_update_with_ui
          = w.calls.count .win_sparkle_check_update_with_ui + 1 ∧
        w1.calls.count .win_sparkle_check_update_without_ui
          = w.calls.count .win_sparkle_check_update_without_ui ∧
        w1.calls.count .win_sparkle_install_update
          = w.calls.count .win_sparkle_install_update) ∧
    (argv[1]? = some "background" → (getInstance w).2.instanceInitialized = true →
      ∃ w1, WinSparkleCLI.main argv w = some (0, w1) ∧
        w1.calls = (getInstance w).2.calls ++ [.win_sparkle_check_update_without_ui] ∧
        w1.calls.count .win_sparkle_check_update_without_ui
          = w.calls.count .win_sparkle_check_update_without_ui + 1 ∧
        w1.calls.count .win_sparkle_check_update_with_ui
          = w.calls.count .win_sparkle_check_update_with_ui ∧
        w1.calls.count .win_sparkle_install_update
          = w.calls.count .win_sparkle_install_update) ∧
    (argv[1]? = some "install" → (getInstance w).2.instanceInitialized = true →
      ∃ w1, WinSparkleCLI.main argv w = some (0, w1) ∧
        w1.calls = (getInstance w).2.calls ++ [.win_sparkle_install_update] ∧
        w1.calls.count .win_sparkle_install_update
          = w.calls.count .win_sparkle_install_update + 1 ∧
        w1.calls.count .win_sparkle_check_update_with_ui
          = w.calls.count .win_sparkle_check_update_with_ui ∧
        w1.calls.count .win_sparkle_check_update_without_ui
          = w.calls.count .win_sparkle_check_update_without_ui) ∧
    (∀ command, argv[1]? = some command →
      command ≠ "check" → command ≠ "install" → command ≠ "background" →
      WinSparkleCLI.main argv w = some (1, (getInstance w).2) ∧
        (getInstance w).2.calls.count .win_sparkle_check_update_with_ui
          = w.calls.count .win_sparkle_check_update_with_ui ∧
        (getInstance w).2.calls.count .win_sparkle_check_update_without_ui
          = w.calls.count .win_sparkle_check_update_without_ui ∧
        (getInstance w).2.calls.count .win_sparkle_install_update
          = w.calls.count .win_sparkle_install_update ∧
        (w.instance_ = none →
          (getInstance w).2.calls = w.calls ++ WinSparkleManager.initializeSparkleCalls ∧
          (getInstance w).2.instanceInitialized = true)) := by
  obtain ⟨k1, k2, k3⟩ := getInstance_counts w
  refine ⟨WinSparkleCLI.main_of_short argv w, ?_, ?_, ?_, ?_⟩
  · intro hc hinit
    obtain ⟨p, hp, hobj⟩ := lookup_of_instanceInitialized _ hinit
    have hp1 : (getInstance w).1 = p := by
      have := getInstance_instance w
      rw [hp] at this
      exact (Option.some.inj this).symm
    rw [← hp1] at hobj
    refine ⟨{ (getInstance w).2 with
      calls := (getInstance w).2.calls ++ [.win_sparkle_check_update_with_ui] }, ?_, rfl, ?_⟩
    · rw [WinSparkleCLI.main_of_command argv _ w hc, World.call_checkForUpdates _ _ _ hobj]
      simp
    · simp [List.count_append, k1, k2, k3]
  · intro hc hinit
    obtain ⟨p, hp, hobj⟩ := lookup_of_instanceInitialized _ hinit
    have hp1 : (getInstance w).1 = p := by
      have := getInstance_instance w
      rw [hp] at this
      exact (Option.some.inj this).symm
    rw [← hp1] at hobj
    refine ⟨{ (getInstance w).2 with
      calls := (getInstance w).2.calls ++ [.win_sparkle_check_update_without_ui] }, ?_, rfl, ?_⟩
    · rw [WinSparkleCLI.main_of_command argv _ w hc,
        World.call_checkForUpdatesInBackground _ _ _ hobj]
      simp
    · simp [List.count_append, k1, k2, k3]
  · intro hc hinit
    obtain ⟨p, hp, hobj⟩ := lookup_of_instanceInitialized _ hinit
    have hp1 : (getInstance w).1 = p := by
      have := getInstance_instance w
      rw [hp] at this
      exact (Option.some.inj this).symm
    rw [← hp1] at hobj
    refine ⟨{ (getInstance w).2 with
      calls := (getInstance w).2.calls ++ [.win_sparkle_install_update] }, ?_, rfl, ?_⟩
    · rw [WinSparkleCLI.main_of_command argv _ w hc, World.call_installUpdate _ _ _ hobj]
      simp
    · simp [List.count_append, k1, k2, k3]
  · intro command hc n1 n2 n3
    refine ⟨?_, k1, k2, k3, ?_⟩
    · rw [WinSparkleCLI.main_of_command argv _ w hc]
      simp [n1, n2, n3]
    · intro hnull
      rw [getInstance_of_null w hnull]
      simp [World.instanceInitialized]

/-- C7, at concrete inputs: the three commands, an unknown command and no command at program
start. -/
theorem cli_command_dispatch_witness :
    WinSparkleCLI.main ["cli", "check"] World.initial
      = some (0, { World.fresh with
          calls := World.fresh.calls ++ [.win_sparkle_check_update_with_ui] }) ∧
    WinSparkleCLI.main ["cli", "background"] World.initial
      = some (0, { World.fresh with
          calls := World.fresh.calls ++ [.win_sparkle_check_update_without_ui] }) ∧
    WinSparkleCLI.main ["cli", "install"] World.initial
      = some (0, { World.fresh with
          calls := World.fresh.calls ++ [.win_sparkle_install_update] }) ∧
    WinSparkleCLI.main ["cli", "update"] World.initial = some (1, World.fresh) ∧
    WinSparkleCLI.main ["cli"] World.initial = some (1, World.initial) ∧
    WinSparkleCLI.main [] World.initial = some (1, World.initial) :=
  ⟨by decide, by decide, by decide, by decide, by decide,
    (cli_command_dispatch [] World.initial).1 (by decide)⟩

/-! ## The update configuration -/

/-- C8: the configuration is changed by the setters only.  Whatever it was before, after the
constructor it is the appcast URL and application details of the source, with
`autoCheckEnabled = true`, `autoDownloadEnabled = false` and
`checkIntervalSeconds = 3600 ≥ 0`; on an initialized manager `setAutomaticChecks(b)` sets
`autoCheckEnabled` to `b` and `setAutomaticDownloads(b)` sets `autoDownloadEnabled` to `b`,
every other field keeping its value; `checkForUpdates`, `checkForUpdatesInBackground`,
`installUpdate` and `isUpdateInProgress` add no configuration call to the log and leave the
configuration as it is. -/
theorem config_changed_by_setters_only (eng : Engine) (c : UpdateConfig)
    (self : WinSparkleManager) (calls : List EngineCall) (b : Bool) :
    c.after (WinSparkleManager.construct calls).2
      = { appcastUrl := "https://updates.ecbot.com/appcast.xml", appName := "ECBot",
          appVersion := "1.0.0", companyName := "ECBot Team", autoCheckEnabled := true,
          autoDownloadEnabled := false, checkIntervalSeconds := 3600 } ∧
    0 ≤ (c.after (WinSparkleManager.construct calls).2).checkIntervalSeconds ∧
    (self.initialized = true →
      c.after (WinSparkleManager.setAutomaticChecks b self calls).2.2
        = { c.after calls with autoCheckEnabled := b }) ∧
    (self.initialized = true →
      c.after (WinSparkleManager.setAutomaticDownloads b self calls).2.2
        = { c.after calls with autoDownloadEnabled := b }) ∧
    (c.after (WinSparkleManager.checkForUpdates self calls).2.2 = c.after calls ∧
      (WinSparkleManager.checkForUpdates self calls).2.2.countP EngineCall.isConfig
        = calls.countP EngineCall.isConfig) ∧
    (c.after (WinSparkleManager.checkForUpdatesInBackground self calls).2.2 = c.after calls ∧
      (WinSparkleManager.checkForUpdatesInBackground self calls).2.2.countP EngineCall.isConfig
        = calls.countP EngineCall.isConfig) ∧
    (c.after (WinSparkleManager.installUpdate self calls).2.2 = c.after calls ∧
      (WinSparkleManager.installUpdate self calls).2.2.countP EngineCall.isConfig
        = calls.countP EngineCall.isConfig) ∧
    (c.after (WinSparkleManager.isUpdateInProgress eng self calls).2.2 = c.after calls ∧
      (WinSparkleManager.isUpdateInProgress eng self calls).2.2.countP EngineCall.isConfig
        = calls.countP EngineCall.isConfig) := by
  have hc : c.after (WinSparkleManager.construct calls).2
      = { appcastUrl := "https://updates.ecbot.com/appcast.xml", appName := "ECBot",
          appVersion := "1.0.0", companyName := "ECBot Team", autoCheckEnabled := true,
          autoDownloadEnabled := false, checkIntervalSeconds := 3600 } := by
    simp [WinSparkleManager.construct, WinSparkleManager.initializeSparkle,
      WinSparkleManager.initializeSparkleCalls, UpdateConfig.after_append]
    simp [UpdateConfig.after, UpdateConfig.apply]
  refine ⟨hc, by rw [hc]; decide, ?_, ?_, ?_, ?_, ?_, ?_⟩
  · intro hi
    cases b <;>
      simp [WinSparkleManager.setAutomaticChecks, hi, UpdateConfig.after_append] <;>
      simp [UpdateConfig.after, UpdateConfig.apply]
  · intro hi
    cases b <;>
      simp [WinSparkleManager.setAutomaticDownloads, hi, UpdateConfig.after_append] <;>
      simp [UpdateConfig.after, UpdateConfig.apply]
  · cases hi : self.initialized <;>
      simp [WinSparkleManager.checkForUpdates, hi, UpdateConfig.after_append,
        UpdateConfig.after, UpdateConfig.apply, EngineCall.isConfig]
  · cases hi : self.initialized <;>
      simp [WinSparkleManager.checkForUpdatesInBackground, hi, UpdateConfig.after_append,
        UpdateConfig.after, UpdateConfig.apply, EngineCall.isConfig]
  · cases hi : self.initialized <;>
      simp [WinSparkleManager.installUpdate, hi, UpdateConfig.after_append,
        UpdateConfig.after, UpdateConfig.apply, EngineCall.isConfig]
  · cases hi : self.initialized <;>
      simp [WinSparkleManager.isUpdateInProgress, hi, UpdateConfig.after_append,
        UpdateConfig.after, UpdateConfig.apply, EngineCall.isConfig]

/-- C8, at a concrete input: switching automatic checks off on the manager the constructor
made keeps the interval of 3600 seconds and automatic downloads off. -/
theorem config_changed_by_setters_only_witness :
    (UpdateConfig.mk "" "" "" "" false true (-1)).after
        (WinSparkleManager.setAutomaticChecks false { initialized := true }
          (WinSparkleManager.construct []).2).2.2
      = { (UpdateConfig.mk "" "" "" "" false true (-1)).after
            (WinSparkleManager.construct []).2 with autoCheckEnabled := false } ∧
    (UpdateConfig.mk "" "" "" "" false true (-1)).after
        (WinSparkleManager.setAutomaticChecks false { initialized := true }
          (WinSparkleManager.construct []).2).2.2
      = { appcastUrl := "https://updates.ecbot.com/appcast.xml", appName := "ECBot",
          appVersion := "1.0.0", companyName := "ECBot Team", autoCheckEnabled := false,
          autoDownloadEnabled := false, checkIntervalSeconds := 3600 } :=
  ⟨(config_changed_by_setters_only Engine.idle (UpdateConfig.mk "" "" "" "" false true (-1))
      { initialized := true } (WinSparkleManager.construct []).2 false).2.2.1 rfl,
    by decide⟩

/-! ## Teardown -/

theorem World.onInstance_eq {α : Type} (w : World) (p : Nat)
    (method : WinSparkleManager → List EngineCall → α × WinSparkleManager × List EngineCall)
    (hp : w.instance_ = some p) :
    w.onInstance method = w.call p method := by
  simp [World.onInstance, hp]

theorem World.Constructed.extend {w : World} (hw : w.Constructed) (heap1 : List WinSparkleManager)
    (hlen : heap1.length = w.heap.length) (extra : List EngineCall)
    (hextra : extra.count .win_sparkle_init = 0) :
    ({ w with heap := heap1, calls := w.calls ++ extra } : World).Constructed := by
  obtain ⟨h1, h2, h3, h4⟩ := hw
  refine ⟨h1, by simp [hlen, h2], ?_, ?_⟩
  · exact h3.trans (List.prefix_append _ _)
  · simp [List.count_append, h4, hextra]

theorem World.Constructed.fresh : World.fresh.Constructed := by
  refine ⟨rfl, rfl, ?_, by decide⟩
  exact List.prefix_rfl

theorem World.Constructed.lookup {w : World} (hw : w.Constructed) :
    ∃ obj, w.heap[0]? = some obj := by
  obtain ⟨_, h2, _, _⟩ := hw
  have h0 : 0 < w.heap.length := by omega
  exact ⟨w.heap[0], List.getElem?_eq_getElem h0⟩

theorem step_constructed (eng : Engine) (w w1 : World) (hw : w.Constructed) (op : Op)
    (h : step eng w op = some w1) : w1.Constructed := by
  have hp : w.instance_ = some 0 := hw.1
  have hg : getInstance w = (0, w) := getInstance_of_some w 0 hp
  obtain ⟨obj, hobj⟩ := hw.lookup
  have one : ∀ (c : EngineCall) (v : World), some (if obj.initialized = true then
        ({ w with calls := w.calls ++ [c] } : World) else w) = some v →
      c ≠ .win_sparkle_init → v.Constructed := by
    intro c v hv hc
    have hv := Option.some.inj hv
    subst hv
    cases obj.initialized with
    | false => simpa using hw
    | true =>
      simp only [if_true]
      exact hw.extend w.heap rfl [c] (by simp [List.count_singleton]; exact hc)
  have hclean : ∀ v : World, some (if obj.initialized = true then
        ({ w with heap := w.heap.set 0 { initialized := false },
                  calls := w.calls ++ [.win_sparkle_cleanup] } : World) else w) = some v →
      v.Constructed := by
    intro v hv
    have hv := Option.some.inj hv
    subst hv
    cases obj.initialized with
    | false => simpa using hw
    | true =>
      simp only [if_true]
      exact hw.extend (w.heap.set 0 { initialized := false }) (by simp)
        [.win_sparkle_cleanup] (by decide)
  cases op with
  | getInstance =>
    simp only [step, hg, Option.some.injEq] at h
    exact h ▸ hw
  | checkForUpdates =>
    simp only [step, World.onInstance_eq w 0 _ hp, World.call_checkForUpdates w 0 obj hobj,
      Option.map_some'] at h
    exact one _ w1 h (by decide)
  | checkForUpdatesInBackground =>
    simp only [step, World.onInstance_eq w 0 _ hp,
      World.call_checkForUpdatesInBackground w 0 obj hobj, Option.map_some'] at h
    exact one _ w1 h (by decide)
  | installUpdate =>
    simp only [step, World.onInstance_eq w 0 _ hp, World.call_installUpdate w 0 obj hobj,
      Option.map_some'] at h
    exact one _ w1 h (by decide)
  | setAutomaticChecks enabled =>
    simp only [step, World.onInstance_eq w 0 _ hp,
      World.call_setAutomaticChecks w 0 obj enabled hobj, Option.map_some'] at h
    exact one _ w1 h (by simp)
  | setAutomaticDownloads enabled =>
    simp only [step, World.onInstance_eq w 0 _ hp,
      World.call_setAutomaticDownloads w 0 obj enabled hobj, Option.map_some'] at h
    exact one _ w1 h (by simp)
  | isUpdateInProgress =>
    simp only [step, World.onInstance_eq w 0 _ hp,
      World.call_isUpdateInProgress eng w 0 obj hobj, Option.map_some'] at h
    refine one .win_sparkle_get_update_in_progress w1 ?_ (by decide)
    rw [← h]; cases obj.initialized <;> rfl
  | cleanup =>
    simp only [step, World.onInstance_eq w 0 _ hp, World.call_cleanup w 0 obj hobj,
      Option.map_some'] at h
    exact hclean w1 h
  | destruct =>
    have hd : w.call 0 WinSparkleManager.destruct = w.call 0 WinSparkleManager.cleanup := rfl
    simp only [step, World.onInstance_eq w 0 _ hp, hd, World.call_cleanup w 0 obj hobj,
      Option.map_some'] at h
    exact hclean w1 h
  | CheckForUpdates =>
    simp only [step, CheckForUpdates, hg, World.call_checkForUpdates w 0 obj hobj,
      Option.map_some'] at h
    exact one _ w1 h (by decide)
  | CheckForUpdatesInBackground =>
    simp only [step, CheckForUpdatesInBackground, hg,
      World.call_checkForUpdatesInBackground w 0 obj hobj, Option.map_some'] at h
    exact one _ w1 h (by decide)
  | InstallUpdate =>
    simp only [step, InstallUpdate, hg, World.call_installUpdate w 0 obj hobj,
      Option.map_some'] at h
    exact one _ w1 h (by decide)
  | SetAutomaticChecks enabled =>
    simp only [step, SetAutomaticChecks, hg] at h
    rw [World.call_setAutomaticChecks w 0 obj _ hobj] at h
    exact one _ w1 h (by simp)
  | SetAutomaticDownloads enabled =>
    simp only [step, SetAutomaticDownloads, hg] at h
    rw [World.call_setAutomaticDownloads w 0 obj _ hobj] at h
    exact one _ w1 h (by simp)
  | IsUpdateInProgress =>
    simp only [step, IsUpdateInProgress, hg, World.call_isUpdateInProgress eng w 0 obj hobj,
      Option.map_some'] at h
    refine one .win_sparkle_get_update_in_progress w1 ?_ (by decide)
    rw [← h]; cases obj.initialized <;> rfl
  | cliMain argv =>
    cases hc : argv[1]? with
    | none =>
      have hlen : argv.length < 2 := by
        have := List.getElem?_eq_none_iff.mp hc
        omega
      simp only [step, WinSparkleCLI.main_of_short argv w hlen, Option.map_some',
        Option.some.injEq] at h
      exact h ▸ hw
    | some c =>
      simp only [step, WinSparkleCLI.main_of_command argv c w hc, hg] at h
      rw [World.call_checkForUpdates w 0 obj hobj, World.call_installUpdate w 0 obj hobj,
        World.call_checkForUpdatesInBackground w 0 obj hobj] at h
      by_cases c1 : c = "check"
      · simp only [c1, if_true, Option.map_some'] at h
        exact one _ w1 h (by decide)
      · by_cases c2 : c = "install"
        · simp only [c2, if_true, Option.map_some'] at h
          exact one _ w1 (by simpa using h) (by decide)
        · by_cases c3 : c = "background"
          · simp only [c3, if_true, Option.map_some'] at h
            exact one _ w1 (by simpa using h) (by decide)
          · simp only [c1, c2, c3, if_false, Option.map_some', Option.some.injEq] at h
            exact h ▸ hw

theorem run_constructed (eng : Engine) (ops : List Op) (w w1 : World) (hw : w.Constructed)
    (h : run eng ops w = some w1) : w1.Constructed := by
  induction ops generalizing w with
  | nil =>
    simp only [run, Option.some.injEq] at h
    exact h ▸ hw
  | cons op ops ih =>
    cases hs : step eng w op with
    | none => simp [run, hs] at h
    | some v =>
      simp only [run, hs] at h
      exact ih v (step_constructed eng w v hw op hs) h

theorem step_initial (eng : Engine) (op : Op) :
    step eng World.initial op = none ∨ step eng World.initial op = some World.initial ∨
      step eng World.initial op = step eng World.fresh op := by
  cases op with
  | cliMain argv =>
    by_cases hlen : argv.length < 2
    · right; left
      simp [step, WinSparkleCLI.main_of_short argv _ hlen]
    · right; right
      simp only [step, WinSparkleCLI.main, hlen, if_false]
      rfl
  | getInstance => right; right; rfl
  | checkForUpdates => left; rfl
  | checkForUpdatesInBackground => left; rfl
  | installUpdate => left; rfl
  | setAutomaticChecks enabled => left; rfl
  | setAutomaticDownloads enabled => left; rfl
  | isUpdateInProgress => left; rfl
  | cleanup => left; rfl
  | destruct => left; rfl
  | CheckForUpdates => right; right; rfl
  | CheckForUpdatesInBackground => right; right; rfl
  | InstallUpdate => right; right; rfl
  | SetAutomaticChecks enabled => right; right; rfl
  | SetAutomaticDownloads enabled => right; right; rfl
  | IsUpdateInProgress => right; right; rfl

theorem run_initial (eng : Engine) (ops : List Op) (w : World)
    (h : run eng ops World.initial = some w) : w = World.initial ∨ w.Constructed := by
  induction ops with
  | nil =>
    simp only [run, Option.some.injEq] at h
    exact Or.inl h.symm
  | cons op ops ih =>
    rcases step_initial eng op with h0 | h0 | h0
    · simp [run, h0] at h
    · simp only [run, h0] at h
      exact ih h
    · cases hs : step eng World.fresh op with
      | none => simp [run, h0, hs] at h
      | some v =>
        simp only [run, h0, hs] at h
        exact Or.inr (run_constructed eng ops v w
          (step_constructed eng World.fresh v World.Constructed.fresh op hs) h)

/-- C9: the engine is initialized once, after its configuration.  The first `getInstance()`
constructs the manager at address 0 and issues the seven configuration calls followed by
`win_sparkle_init`.  After every sequence of calls that can be made from program start, the
next `getInstance()` returns address 0; the state either is still the initial one (no engine
call was made) or the manager exists, `getInstance()` returns it without changing anything,
the log begins with the calls of the constructor and holds exactly one `win_sparkle_init`.
Constructing an `ECBotWinSparkleUpdater` issues `win_sparkle_set_appcast_url`,
`win_sparkle_set_app_details` and then its one `win_sparkle_init`. -/
theorem engine_initialized_once (eng : Engine) (ops : List Op) (w : World)
    (calls : List EngineCall) (h : run eng ops World.initial = some w) :
    getInstance World.initial = (0, World.fresh) ∧
    World.fresh.calls = WinSparkleManager.initializeSparkleCalls ∧
    (∃ config, WinSparkleManager.initializeSparkleCalls = config ++ [.win_sparkle_init] ∧
      config.length = 7 ∧ config.all EngineCall.isConfig = true ∧
      config.count .win_sparkle_init = 0) ∧
    (getInstance w).1 = 0 ∧
    (w = World.initial ∨
      (w.instance_ = some 0 ∧ getInstance w = (0, w) ∧
        WinSparkleManager.initializeSparkleCalls <+: w.calls ∧
        w.calls.count .win_sparkle_init = 1)) ∧
    ECBotWinSparkleUpdater.construct calls
      = calls ++ [.win_sparkle_set_appcast_url "https://your-server.com/appcast.xml",
          .win_sparkle_set_app_details "ECBot" "ECBot" "1.0.0", .win_sparkle_init] := by
  refine ⟨rfl, rfl, ⟨WinSparkleManager.initializeSparkleCalls.dropLast, by decide, by decide,
    by decide, by decide⟩, ?_, ?_, rfl⟩
  · rcases run_initial eng ops w h with h0 | h0
    · rw [h0]; rfl
    · rw [getInstance_of_some w 0 h0.1]
  · rcases run_initial eng ops w h with h0 | h0
    · exact Or.inl h0
    · exact Or.inr ⟨h0.1, getInstance_of_some w 0 h0.1, h0.2.2.1, h0.2.2.2⟩

/-- C9, at a concrete input: a sequence with several `getInstance()` calls, exported calls, a
teardown and a command-line call. -/
theorem engine_initialized_once_witness :
    run Engine.idle
        [.CheckForUpdates, .getInstance, .setAutomaticDownloads true, .cleanup, .getInstance,
          .InstallUpdate, .cliMain ["cli", "check"]] World.initial
      = some { instance_ := some 0, heap := [{ initialized := false }],
               calls := WinSparkleManager.initializeSparkleCalls ++
                 [.win_sparkle_check_update_with_ui,
                  .win_sparkle_set_automatically_download_updates 1,
                  .win_sparkle_cleanup] } ∧
    (getInstance
      { instance_ := some 0, heap := [{ initialized := false }],
        calls := WinSparkleManager.initializeSparkleCalls ++
          [.win_sparkle_check_update_with_ui,
           .win_sparkle_set_automatically_download_updates 1,
           .win_sparkle_cleanup] }).1 = 0 :=
  ⟨by decide,
    (engine_initialized_once Engine.idle
      [.CheckForUpdates, .getInstance, .setAutomaticDownloads true, .cleanup, .getInstance,
        .InstallUpdate, .cliMain ["cli", "check"]] _ [] (by decide)).2.2.2.1⟩

end WinSparkle
